import Mathlib

/-!
Verification of `tensorflow_tts/bin/train_melgan.py` (MelGAN trainer).

Numeric tensors are modelled over `ℚ` (idealised real arithmetic; shapes are
flattened to lists).  Fallible TensorFlow operations (`tf.pad` with a negative
padding amount) return `Option`; Python locals that may be read before
assignment are modelled as `Option` values, and reading `none` raises, which we
model with `Except`.
-/

namespace TrainMelgan

/-- A (flattened) floating point tensor. -/
abbrev Tensor := List ℚ

/-- Arithmetic mean of a tensor's entries (`tf.reduce_mean`); 0 on the empty
tensor, which never arises in the properties below. -/
def mean (t : Tensor) : ℚ := t.sum / t.length

/-- Modelled from the spec: `melgan_relu_error` from `tensorflow_tts.losses`
(the module is not part of this file's sources).  Per the spec,
`error(target, pred) = mean(relu(target - pred))`. -/
def melgan_relu_error (target : ℚ) (pred : Tensor) : ℚ :=
  mean (pred.map (fun x => max (target - x) 0))

/-- Modelled from the spec: `mae_error` from `tensorflow_tts.losses`:
mean absolute error between two same-shape tensors. -/
def mae_error (a b : Tensor) : ℚ :=
  mean ((a.zip b).map (fun p => |p.1 - p.2|))

/-- `tf.pad` on a 1-D tensor with right padding `pad`: zero-pads on the right;
a negative padding amount is an error (`InvalidArgumentError`). -/
def tf_pad_1d (t : Tensor) (pad : ℤ) : Option Tensor :=
  if pad < 0 then none
  else some (t ++ List.replicate pad.toNat 0)

/-- `tf.pad` on a 2-D tensor (list of frames) with `pad` extra rows on the
right and no column padding: appends all-zero frames of the tensor's frame
width; a negative padding amount is an error. -/
def tf_pad_frames (mel : List Tensor) (pad : ℤ) : Option (List Tensor) :=
  if pad < 0 then none
  else some (mel ++ List.replicate pad.toNat (List.replicate (mel.headD []).length 0))

/-- The waveform audio after the alignment padding of lines 318-319:
`if len(audio) < len(mel) * hop_size: audio = tf.pad(audio, ...)` (this pad
amount is non-negative exactly when the branch is taken, so it never fails). -/
def aligned_audio (audio : Tensor) (mel : List Tensor) (hop_size : ℕ) : Tensor :=
  if audio.length < mel.length * hop_size
  then audio ++ List.replicate (mel.length * hop_size - audio.length) (0 : ℚ)
  else audio

/-- Shallow embedding of `collater` (train_melgan.py lines 305-336).

`randDraw` is the externally sourced random draw backing
`tf.random.uniform(shape=[], minval=0, maxval=interval_end, dtype=tf.int32)`;
it is reduced modulo `interval_end` so that, as in the source, the chosen
start frame ranges uniformly over `[0, interval_end)`. -/
def collater (audio : Tensor) (mel : List Tensor)
    (batch_max_steps : Option ℕ) (hop_size : ℕ) (randDraw : ℕ) :
    Option (Tensor × List Tensor) :=
  let bms : ℕ := batch_max_steps.getD ((audio.length / hop_size) * hop_size)
  let batch_max_frames := bms / hop_size
  let audio1 := aligned_audio audio mel hop_size
  if batch_max_frames < mel.length then
    let interval_end := mel.length - batch_max_frames
    let start_frame := randDraw % interval_end
    let start_step := start_frame * hop_size
    some ((audio1.drop start_step).take bms,
          (mel.drop start_frame).take batch_max_frames)
  else
    match tf_pad_1d audio1 ((bms : ℤ) - audio1.length) with
    | none => none
    | some a =>
      match tf_pad_frames mel ((batch_max_frames : ℤ) - mel.length) with
      | none => none
      | some m => some (a, m)

/-- Output of one discriminator application: one list per scale, each a list
of intermediate activations ending in the final scalar decision tensor. -/
abbrev DiscOutput := List (List Tensor)

/-- `scale[-1]`: the final (decision) tensor of one scale's output list. -/
def lastLayer (scale : List Tensor) : Tensor := scale.getLastD []

/-- Adversarial generator loss (lines 116-118 and 212-214):
sum over scales of `melgan_relu_error(0.0, 1.0 * p_hat[i][-1])`. -/
def adv_loss (p_hat : DiscOutput) : ℚ :=
  (p_hat.map (fun pi => melgan_relu_error 0 ((lastLayer pi).map (fun x => 1 * x)))).sum

/-- Feature-matching loss (lines 126-128 and 222-224): for each scale `i` and
each intermediate layer `j < len(p_hat[i]) - 1`, add
`wt * mae_error(p_hat[i][j], p[i][j])`. -/
def fm_loss (wt : ℚ) (p_hat p : DiscOutput) : ℚ :=
  ((p_hat.zip p).map (fun s =>
    ((s.1.dropLast.zip s.2).map (fun l => wt * mae_error l.1 l.2)).sum)).sum

/-- Config fields of `config` read by the step functions. -/
structure MelganConfig where
  downsample_scales : List ℕ
  scales : ℕ
  lambda_feat_match : ℚ

/-- `feat_weights = 4.0 / (len(downsample_scales) + 1)` (line 122 / 218). -/
def feat_weights (cfg : MelganConfig) : ℚ := 4 / (cfg.downsample_scales.length + 1)

/-- `p_weights = 1.0 / scales` (line 123 / 219). -/
def p_weights (cfg : MelganConfig) : ℚ := 1 / (cfg.scales : ℚ)

/-- `wt = p_weights * feat_weights` (line 124 / 220). -/
def fm_weight (cfg : MelganConfig) : ℚ := p_weights cfg * feat_weights cfg

/-- `gen_loss = adv_loss + lambda_feat_match * fm_loss` (line 130 / 226). -/
def gen_loss (cfg : MelganConfig) (p_hat p : DiscOutput) : ℚ :=
  adv_loss p_hat + cfg.lambda_feat_match * fm_loss (fm_weight cfg) p_hat p

/-- `real_loss` (lines 157-158 and 232-233): sum over scales of
`melgan_relu_error(1.0, p[i][-1])`; the loop range indexes both `p` and
`p_hat`, hence the zip. -/
def real_loss (p p_hat : DiscOutput) : ℚ :=
  ((p.zip p_hat).map (fun s => melgan_relu_error 1 (lastLayer s.1))).sum

/-- `fake_loss` (lines 157-159 and 232-234): sum over scales of
`melgan_relu_error(1.0, -p_hat[i][-1])`. -/
def fake_loss (p p_hat : DiscOutput) : ℚ :=
  ((p.zip p_hat).map (fun s => melgan_relu_error 1 ((lastLayer s.2).map (fun x => -x)))).sum

/-- Result of one discriminator training step: the three losses recorded into
the metrics, and the loss whose gradients end up applied to the
discriminator's trainable variables (gradients of a scaled loss are unscaled
by `get_unscaled_gradients` before applying; differentiation is linear, so
dividing the differentiated loss by the scale factor represents that). -/
structure DisStepResult where
  rec_real_loss : ℚ
  rec_fake_loss : ℚ
  rec_dis_loss : ℚ
  applied_grad_loss : ℚ

/-- Shallow embedding of `_one_step_discriminator` (lines 149-171).  The
Python local `scaled_dis_loss` is assigned only under
`is_discriminator_mixed_precision` (lines 163-164); it is modelled as an
`Option`, and a branch that reads it while unassigned raises
`UnboundLocalError`.  Note line 170: the non-mixed-precision branch
differentiates `scaled_dis_loss`, not `dis_loss`. -/
def one_step_discriminator (is_discriminator_mixed_precision : Bool)
    (loss_scale : ℚ) (p p_hat : DiscOutput) : Except String DisStepResult :=
  let rl := real_loss p p_hat
  let fl := fake_loss p p_hat
  let dl := rl + fl
  let scaled_dis_loss : Option ℚ :=
    if is_discriminator_mixed_precision then some (loss_scale * dl) else none
  if is_discriminator_mixed_precision then
    match scaled_dis_loss with
    | some s => Except.ok ⟨rl, fl, dl, s / loss_scale⟩
    | none => Except.error "UnboundLocalError: local variable scaled_dis_loss referenced before assignment"
  else
    match scaled_dis_loss with
    | some s => Except.ok ⟨rl, fl, dl, s⟩
    | none => Except.error "UnboundLocalError: local variable scaled_dis_loss referenced before assignment"

/-- The six loss values recorded by `_eval_step`. -/
structure EvalStepLosses where
  adversarial_loss : ℚ
  fm : ℚ
  gen : ℚ
  real : ℚ
  fake : ℚ
  dis : ℚ
deriving DecidableEq

/-- Shallow embedding of `_eval_step` (lines 204-244), with the generator and
discriminator passed as (fixed-weight, deterministic) functions.  As in the
source, `p_hat = discriminator(y_hat)` is recomputed a second time (line 229)
for the discriminator-loss portion. -/
def eval_step {M : Type} (generator : M → Tensor) (discriminator : Tensor → DiscOutput)
    (cfg : MelganConfig) (y : Tensor) (mels : M) : EvalStepLosses :=
  let y_hat := generator mels
  let p_hat := discriminator y_hat
  let adv := adv_loss p_hat
  let p := discriminator y
  let fm := fm_loss (fm_weight cfg) p_hat p
  let gen := adv + cfg.lambda_feat_match * fm
  let p_hat2 := discriminator y_hat
  let rl := real_loss p p_hat2
  let fl := fake_loss p p_hat2
  ⟨adv, fm, gen, rl, fl, rl + fl⟩

/-- The variant of `_eval_step` described by the spec's open question: it
reuses the `p_hat` already computed for the generator-loss portion instead of
applying the discriminator to `y_hat` a second time. -/
def eval_step_reuse {M : Type} (generator : M → Tensor) (discriminator : Tensor → DiscOutput)
    (cfg : MelganConfig) (y : Tensor) (mels : M) : EvalStepLosses :=
  let y_hat := generator mels
  let p_hat := discriminator y_hat
  let adv := adv_loss p_hat
  let p := discriminator y
  let fm := fm_loss (fm_weight cfg) p_hat p
  let gen := adv + cfg.lambda_feat_match * fm
  let rl := real_loss p p_hat
  let fl := fake_loss p p_hat
  ⟨adv, fm, gen, rl, fl, rl + fl⟩

/-- Modelled from the spec: `tf.keras.metrics.Mean` as instantiated by
`init_train_eval_metrics` (lines 75-95); the class itself is external to the
sources.  A named running mean: `update_state` folds one scalar into the
accumulator, `result` returns the current mean, `reset_states` zeroes it. -/
structure MeanMetric where
  total : ℚ
  count : ℕ
deriving DecidableEq

/-- A freshly created mean metric. -/
def MeanMetric.init : MeanMetric := ⟨0, 0⟩

/-- `update_state(value)`. -/
def MeanMetric.update_state (m : MeanMetric) (v : ℚ) : MeanMetric :=
  ⟨m.total + v, m.count + 1⟩

/-- `result()`: the running mean (0 before any update, as in keras). -/
def MeanMetric.result (m : MeanMetric) : ℚ :=
  if m.count = 0 then 0 else m.total / (m.count : ℚ)

/-- `reset_states()`. -/
def MeanMetric.reset_states (_ : MeanMetric) : MeanMetric := ⟨0, 0⟩

/-- `self.list_metrics_name` (lines 61-68). -/
def list_metrics_name : List String :=
  ["adversarial_loss", "fm_loss", "gen_loss", "real_loss", "fake_loss", "dis_loss"]

/-- `init_train_eval_metrics` (lines 75-85): one fresh mean per registered
name (the train set; the eval set is built identically). -/
def init_metrics : List (String × MeanMetric) :=
  list_metrics_name.map (fun n => (n, MeanMetric.init))

/-- The `steps` / `finish_train` portion of the trainer state (fields of the
base trainer, driven here by lines 97-106 and 299-302). -/
structure TrainerState where
  steps : ℕ
  finish_train : Bool
deriving DecidableEq

/-- `_check_train_finish` (lines 299-302). -/
def check_train_finish (train_max_steps : ℕ) (s : TrainerState) : TrainerState :=
  if train_max_steps ≤ s.steps then { s with finish_train := true } else s

/-- The counter effect of `_train_step` (lines 97-106): after the generator
and discriminator updates, `self.steps += 1` and then `_check_train_finish`. -/
def train_step_counters (train_max_steps : ℕ) (s : TrainerState) : TrainerState :=
  check_train_finish train_max_steps { s with steps := s.steps + 1 }

/-- State after consuming `k` training batches in sequence. -/
def run_train_steps (train_max_steps : ℕ) : ℕ → TrainerState → TrainerState
  | 0, s => s
  | k + 1, s => run_train_steps train_max_steps k (train_step_counters train_max_steps s)

/-- Outcome of one `_eval_epoch` call (lines 178-202). -/
inductive EvalEpochOutcome where
  /-- The pass ran to completion: `evalSteps` batches were evaluated, the
  final report logged `loggedCount` steps per epoch, and the eval metrics
  were flushed to tensorboard and reset. -/
  | completed (evalSteps loggedCount : ℕ)
  /-- An exception propagated out after `evalStepsDone` completed
  `_eval_step` calls: the remaining batches are not evaluated and the eval
  metrics are neither logged, flushed nor reset. -/
  | aborted (evalStepsDone : ℕ) (err : String)
deriving DecidableEq

/-- The loop of `_eval_epoch` (lines 183-189): `done` counts completed
`_eval_step` calls, `counter` mirrors the Python loop variable
`eval_steps_per_epoch` (unbound before the first iteration, hence `Option`).
`save_ok idx` says whether `generate_and_save_intermediate_result` succeeds
on the `idx`-th batch; the source wraps it in no handler, so a failure
raises out of the loop. -/
def eval_epoch_loop {B : Type} (num_save : ℕ) (save_ok : ℕ → Bool) :
    List B → ℕ → Option ℕ → Except (ℕ × String) (ℕ × Option ℕ)
  | [], done, counter => Except.ok (done, counter)
  | _ :: rest, done, _ =>
    let idx := done + 1
    if idx ≤ num_save ∧ save_ok idx = false then
      Except.error (idx, "intermediate result export failed")
    else
      eval_epoch_loop num_save save_ok rest idx (some idx)

/-- `_eval_epoch` (lines 178-202): run the loop over the eval data loader,
then log the loop counter (which raises `UnboundLocalError` at line 192 when
the loader yielded no batches), then log, flush and reset the eval metrics. -/
def eval_epoch {B : Type} (num_save : ℕ) (save_ok : ℕ → Bool) (batches : List B) :
    EvalEpochOutcome :=
  match eval_epoch_loop num_save save_ok batches 0 none with
  | Except.error e => EvalEpochOutcome.aborted e.1 e.2
  | Except.ok (done, none) =>
      EvalEpochOutcome.aborted done
        "UnboundLocalError: local variable referenced before assignment"
  | Except.ok (done, some c) => EvalEpochOutcome.completed done c

/-- Modelled from the spec: `GanBasedTrainer.run` (the base class is external
to the sources).  The driver consumes training batches one at a time until
`finish_train` is set or the data is exhausted; an operator interruption
(`KeyboardInterrupt`) is observed at a step boundary (the spec: "a step is
atomic with respect to external interruption") and propagates, carrying the
trainer state with all completed steps.  `interrupt_at st` says whether the
cancellation signal is pending when the counter reads `st`. -/
def trainer_run {B : Type} (train_max_steps : ℕ) (interrupt_at : ℕ → Bool) :
    List B → TrainerState → Except TrainerState TrainerState
  | [], s => Except.ok s
  | _ :: rest, s =>
    if s.finish_train then Except.ok s
    else if interrupt_at s.steps then Except.error s
    else trainer_run train_max_steps interrupt_at rest (train_step_counters train_max_steps s)

/-- The training section of `main` (lines 522-527): `try: trainer.run()`,
`except KeyboardInterrupt: trainer.save_checkpoint()`.  The second component
records the `steps` value at which the handler's `save_checkpoint` ran
(`none` when no interruption occurred). -/
def main_run {B : Type} (train_max_steps : ℕ) (interrupt_at : ℕ → Bool)
    (batches : List B) (s0 : TrainerState) : TrainerState × Option ℕ :=
  match trainer_run train_max_steps interrupt_at batches s0 with
  | Except.ok s => (s, none)
  | Except.error s => (s, some s.steps)

/-! ## Helper lemmas -/

theorem eval_epoch_loop_all_ok {B : Type} (num_save : ℕ) (batches : List B) :
    ∀ (done : ℕ) (c : Option ℕ),
      eval_epoch_loop num_save (fun _ => true) batches done c =
        Except.ok (done + batches.length,
          if batches.isEmpty then c else some (done + batches.length)) := by
  induction batches with
  | nil => intro done c; simp [eval_epoch_loop]
  | cons b rest ih =>
    intro done c
    rw [eval_epoch_loop]
    simp only [Bool.true_eq_false, and_false, if_false, ih (done + 1) (some (done + 1))]
    rcases rest with _ | ⟨r, rs⟩
    · simp
    · simp
      omega

theorem meanMetric_foldl (vs : List ℚ) :
    ∀ (t : ℚ) (c : ℕ),
      List.foldl MeanMetric.update_state ⟨t, c⟩ vs = ⟨t + vs.sum, c + vs.length⟩ := by
  induction vs with
  | nil => intro t c; simp
  | cons v rest ih =>
    intro t c
    simp only [List.foldl_cons, MeanMetric.update_state, ih, List.sum_cons, List.length_cons,
      MeanMetric.mk.injEq]
    exact ⟨by ring, by omega⟩

theorem list_zip_self {α : Type} (l : List α) : l.zip l = l.map (fun x => (x, x)) := by
  induction l with
  | nil => rfl
  | cons a t ih => rw [List.map_cons, List.zip_cons_cons, ih]

theorem mae_error_self (a : Tensor) : mae_error a a = 0 := by
  unfold mae_error mean
  rw [list_zip_self, List.map_map]
  have h : ((fun p : ℚ × ℚ => |p.1 - p.2|) ∘ fun x => (x, x)) = fun x : ℚ => (0 : ℚ) := by
    funext x
    simp
  rw [h]
  have hz : (List.map (fun x : ℚ => (0 : ℚ)) a).sum = 0 :=
    List.sum_eq_zero (by intro x hx; simp only [List.mem_map] at hx; obtain ⟨y, hy, rfl⟩ := hx; rfl)
  rw [hz, zero_div]

theorem fm_loss_eq_zero (wt : ℚ) (p_hat p : DiscOutput)
    (h : ∀ s ∈ p_hat.zip p, ∀ l ∈ s.1.dropLast.zip s.2, l.1 = l.2) :
    fm_loss wt p_hat p = 0 := by
  unfold fm_loss
  apply List.sum_eq_zero
  intro x hx
  simp only [List.mem_map] at hx
  obtain ⟨s, hs, rfl⟩ := hx
  apply List.sum_eq_zero
  intro y hy
  simp only [List.mem_map] at hy
  obtain ⟨l, hl, rfl⟩ := hy
  rw [h s hs l hl, mae_error_self, mul_zero]

theorem train_step_counters_spec (train_max_steps : ℕ) (s : TrainerState) :
    (train_step_counters train_max_steps s).steps = s.steps + 1
    ∧ ((train_step_counters train_max_steps s).finish_train = true ↔
        (s.finish_train = true ∨ train_max_steps ≤ s.steps + 1)) := by
  unfold train_step_counters check_train_finish
  by_cases hc : train_max_steps ≤ s.steps + 1 <;> simp [hc]

theorem run_train_steps_spec (train_max_steps : ℕ) :
    ∀ (k : ℕ) (s : TrainerState),
      (run_train_steps train_max_steps k s).steps = s.steps + k
      ∧ ((run_train_steps train_max_steps k s).finish_train = true ↔
          (s.finish_train = true ∨ (1 ≤ k ∧ train_max_steps ≤ s.steps + k))) := by
  intro k
  induction k with
  | zero => intro s; simp [run_train_steps]
  | succ n ih =>
    intro s
    obtain ⟨hTs, hTf⟩ := train_step_counters_spec train_max_steps s
    obtain ⟨hs, hf⟩ := ih (train_step_counters train_max_steps s)
    rw [show run_train_steps train_max_steps (n + 1) s
        = run_train_steps train_max_steps n (train_step_counters train_max_steps s) from rfl]
    constructor
    · rw [hs, hTs]; omega
    · rw [hf, hTf]
      constructor
      · rintro ((h | h) | ⟨h1, h2⟩)
        · exact Or.inl h
        · exact Or.inr ⟨by omega, by omega⟩
        · exact Or.inr ⟨by omega, by rw [hTs] at h2; omega⟩
      · rintro (h | ⟨h1, h2⟩)
        · exact Or.inl (Or.inl h)
        · rcases Nat.eq_or_lt_of_le h1 with h3 | h3
          · exact Or.inl (Or.inr (by omega))
          · exact Or.inr ⟨by omega, by rw [hTs]; omega⟩

/-! ## Claims -/

/-- C1: the claim says that with discriminator mixed precision disabled the
step differentiates the unscaled `dis_loss` directly and completes without
error.  On the code this fails: line 170 differentiates the local
`scaled_dis_loss`, which is assigned only under mixed precision, so with it
disabled `_one_step_discriminator` raises `UnboundLocalError` for every
input instead of completing. -/
theorem one_step_discriminator_unscaled_raises (loss_scale : ℚ) (p p_hat : DiscOutput) :
    one_step_discriminator false loss_scale p p_hat =
      Except.error "UnboundLocalError: local variable scaled_dis_loss referenced before assignment" :=
  rfl

/-- C9: the evaluation step recomputes `discriminator(y_hat)` for the
discriminator-loss portion; since the discriminator is a fixed function at
evaluation time, a variant reusing the first `p_hat` produces identical
adv/fm/gen/real/fake/dis losses. -/
theorem eval_step_recompute_eq_reuse {M : Type} (generator : M → Tensor)
    (discriminator : Tensor → DiscOutput) (cfg : MelganConfig) (y : Tensor) (mels : M) :
    eval_step generator discriminator cfg y mels
      = eval_step_reuse generator discriminator cfg y mels :=
  rfl

/-- C10: `_eval_epoch` completes and logs the step count for every non-empty
evaluation dataset, but on an empty data loader the post-loop logging reads
the never-bound loop counter and the pass fails instead of completing with
zero steps. -/
theorem eval_epoch_requires_nonempty {B : Type} (num_save : ℕ) (batches : List B) :
    (batches ≠ [] →
      eval_epoch num_save (fun _ => true) batches
        = EvalEpochOutcome.completed batches.length batches.length)
    ∧ (batches = [] →
      eval_epoch num_save (fun _ => true) batches
        = EvalEpochOutcome.aborted 0
            "UnboundLocalError: local variable referenced before assignment") := by
  constructor
  · intro h
    unfold eval_epoch
    rw [eval_epoch_loop_all_ok num_save batches 0 none]
    have hne : batches.isEmpty = false := by
      rcases batches with _ | _
      · exact absurd rfl h
      · rfl
    rw [hne]
    simp
  · intro h
    subst h
    rfl

theorem eval_epoch_requires_nonempty_witness :
    eval_epoch 2 (fun _ => true) ([10] : List ℕ) = EvalEpochOutcome.completed 1 1
    ∧ eval_epoch 2 (fun _ => true) ([] : List ℕ)
      = EvalEpochOutcome.aborted 0
          "UnboundLocalError: local variable referenced before assignment" :=
  ⟨(eval_epoch_requires_nonempty 2 [10]).1 (by decide),
   (eval_epoch_requires_nonempty 2 ([] : List ℕ)).2 rfl⟩

/-- C4: from a not-yet-finished state, consuming `k` training batches leaves
`steps = s0.steps + k` (so `steps` rises by exactly one per batch and never
decreases), and `finish_train` is set exactly when at least one batch has
been consumed and the counter has reached `train_max_steps` — never before,
and (since the characterization is monotone in `k`) it stays set thereafter. -/
theorem trainer_steps_finish_dynamics (train_max_steps k : ℕ) (s0 : TrainerState)
    (h0 : s0.finish_train = false) :
    (run_train_steps train_max_steps k s0).steps = s0.steps + k
    ∧ (run_train_steps train_max_steps (k + 1) s0).steps
        = (run_train_steps train_max_steps k s0).steps + 1
    ∧ ((run_train_steps train_max_steps k s0).finish_train = true ↔
        (1 ≤ k ∧ train_max_steps ≤ s0.steps + k)) := by
  obtain ⟨hs, hf⟩ := run_train_steps_spec train_max_steps k s0
  obtain ⟨hs1, _⟩ := run_train_steps_spec train_max_steps (k + 1) s0
  refine ⟨hs, by rw [hs1, hs]; omega, ?_⟩
  rw [hf, h0]
  simp

theorem trainer_steps_finish_dynamics_witness :
    (run_train_steps 3 5 ⟨0, false⟩).steps = 0 + 5
    ∧ (run_train_steps 3 (5 + 1) ⟨0, false⟩).steps = (run_train_steps 3 5 ⟨0, false⟩).steps + 1
    ∧ ((run_train_steps 3 5 ⟨0, false⟩).finish_train = true ↔ (1 ≤ 5 ∧ 3 ≤ 0 + 5)) :=
  trainer_steps_finish_dynamics 3 5 ⟨0, false⟩ rfl

/-- C5: for every registered metric name, after a reset followed by the
update calls `[v1..vn]` the metric's `result()` is the arithmetic mean
`(v1+..+vn)/n`; and after a reset a single `update v` makes `result() = v`. -/
theorem metrics_running_mean (name : String) (m : MeanMetric)
    (_hm : (name, m) ∈ init_metrics) (vs : List ℚ) (v : ℚ) :
    (vs ≠ [] →
      (List.foldl MeanMetric.update_state m.reset_states vs).result
        = vs.sum / (vs.length : ℚ))
    ∧ (m.reset_states.update_state v).result = v := by
  constructor
  · intro hne
    rw [show m.reset_states = (⟨0, 0⟩ : MeanMetric) from rfl, meanMetric_foldl]
    have hlen : vs.length ≠ 0 := by
      rcases vs with _ | _
      · exact absurd rfl hne
      · simp
    simp [MeanMetric.result, hlen]
  · simp [MeanMetric.reset_states, MeanMetric.update_state, MeanMetric.result]

theorem metrics_running_mean_witness :
    (List.foldl MeanMetric.update_state MeanMetric.init.reset_states [(1 : ℚ), 2]).result
      = ([(1 : ℚ), 2].sum) / (([(1 : ℚ), 2].length : ℕ) : ℚ)
    ∧ (MeanMetric.init.reset_states.update_state 5).result = 5 :=
  ⟨(metrics_running_mean "gen_loss" MeanMetric.init (by decide) [(1 : ℚ), 2] 5).1 (by decide),
   (metrics_running_mean "gen_loss" MeanMetric.init (by decide) [(1 : ℚ), 2] 5).2⟩

/-- C6: with a single discriminator scale and `downsample_scales` of length
one, the combined feature-matching weight is `(1/1) * (4/2) = 2`; and for
discriminator outputs that agree at every intermediate layer, `fm_loss = 0`
and `gen_loss = adv_loss` exactly. -/
theorem single_scale_weights_and_matching (cfg : MelganConfig)
    (hds : cfg.downsample_scales.length = 1) (hsc : cfg.scales = 1)
    (p_hat p : DiscOutput)
    (hmatch : ∀ s ∈ p_hat.zip p, ∀ l ∈ s.1.dropLast.zip s.2, l.1 = l.2) :
    fm_weight cfg = 2
    ∧ fm_loss (fm_weight cfg) p_hat p = 0
    ∧ gen_loss cfg p_hat p = adv_loss p_hat := by
  have hw : fm_weight cfg = 2 := by
    unfold fm_weight p_weights feat_weights
    rw [hds, hsc]
    norm_num
  have hf := fm_loss_eq_zero (fm_weight cfg) p_hat p hmatch
  refine ⟨hw, hf, ?_⟩
  unfold gen_loss
  rw [hf, mul_zero, add_zero]

theorem single_scale_weights_and_matching_witness :
    fm_weight ⟨[8], 1, 25⟩ = 2
    ∧ fm_loss (fm_weight ⟨[8], 1, 25⟩) [[[1, 2], [3]]] [[[1, 2], [3]]] = 0
    ∧ gen_loss ⟨[8], 1, 25⟩ [[[1, 2], [3]]] [[[1, 2], [3]]] = adv_loss [[[1, 2], [3]]] :=
  single_scale_weights_and_matching ⟨[8], 1, 25⟩ rfl rfl
    [[[1, 2], [3]]] [[[1, 2], [3]]] (by decide)

/-- C2 as stated is false on the code: with `hop_size = 2` and
`batch_max_steps = 4` (so `batch_max_frames = 2`), a waveform of length 5 and
a 2-frame feature sequence satisfy `len(waveform) ≥ len(mel) * hop_size` and
`len(mel) ≤ batch_max_frames`, yet the collater fails (`tf.pad` is called
with the negative amount `batch_max_steps - len(waveform) = -1`) instead of
returning a `batch_max_steps`-length waveform. -/
theorem collater_pad_counterexample :
    ([[1], [1]] : List Tensor).length * 2 ≤ ([1, 1, 1, 1, 1] : Tensor).length
    ∧ ([[1], [1]] : List Tensor).length ≤ 4 / 2
    ∧ collater [1, 1, 1, 1, 1] [[1], [1]] (some 4) 2 0 = none := by
  refine ⟨by decide, by decide, ?_⟩
  rfl

/-- C2 amended: the counterexample forces the extra premise
`len(waveform) ≤ batch_max_steps` (without it the right padding amount is
negative and `tf.pad` fails).  Under it the collater zero-pads the waveform
to exactly `batch_max_steps` samples and the features to exactly
`batch_max_frames` frames, leaving the original data in place. -/
theorem collater_pads_to_target (audio : Tensor) (mel : List Tensor)
    (bms hop randDraw : ℕ)
    (halign : mel.length * hop ≤ audio.length)
    (haudio : audio.length ≤ bms)
    (hmel : mel.length ≤ bms / hop) :
    collater audio mel (some bms) hop randDraw =
      some (audio ++ List.replicate (bms - audio.length) 0,
            mel ++ List.replicate (bms / hop - mel.length)
              (List.replicate (mel.headD []).length 0))
    ∧ (audio ++ List.replicate (bms - audio.length) (0 : ℚ)).length = bms
    ∧ (mel ++ List.replicate (bms / hop - mel.length)
        (List.replicate (mel.headD []).length (0 : ℚ))).length = bms / hop := by
  have h1 : ¬ audio.length < mel.length * hop := not_lt.mpr halign
  have h2 : ¬ bms / hop < mel.length := not_lt.mpr hmel
  have haligned : aligned_audio audio mel hop = audio := by
    unfold aligned_audio
    rw [if_neg h1]
  refine ⟨?_, ?_, ?_⟩
  · have e1 : ((bms : ℤ) - (audio.length : ℤ)).toNat = bms - audio.length := by omega
    have e2 : (((bms / hop : ℕ) : ℤ) - (mel.length : ℤ)).toNat = bms / hop - mel.length := by
      omega
    simp only [collater, Option.getD_some, haligned, tf_pad_1d, tf_pad_frames,
      if_neg h2, if_neg (by omega : ¬ ((bms : ℤ) - (audio.length : ℤ) < 0)),
      if_neg (by omega : ¬ (((bms / hop : ℕ) : ℤ) - (mel.length : ℤ) < 0)), e1, e2]
  · rw [List.length_append, List.length_replicate]; omega
  · rw [List.length_append, List.length_replicate]; omega

theorem collater_pads_to_target_witness :
    collater [1, 2, 3, 4, 5] [[3], [4]] (some 6) 2 0
      = some ([1, 2, 3, 4, 5] ++ List.replicate (6 - ([1, 2, 3, 4, 5] : Tensor).length) 0,
              [[3], [4]] ++ List.replicate (6 / 2 - ([[3], [4]] : List Tensor).length)
                (List.replicate (([[3], [4]] : List Tensor).headD []).length 0))
    ∧ (([1, 2, 3, 4, 5] : Tensor)
        ++ List.replicate (6 - ([1, 2, 3, 4, 5] : Tensor).length) (0 : ℚ)).length = 6
    ∧ (([[3], [4]] : List Tensor)
        ++ List.replicate (6 / 2 - ([[3], [4]] : List Tensor).length)
          (List.replicate (([[3], [4]] : List Tensor).headD []).length (0 : ℚ))).length = 6 / 2 :=
  collater_pads_to_target [1, 2, 3, 4, 5] [[3], [4]] 6 2 0
    (by decide) (by decide) (by decide)

/-- C3: when `len(mel) > batch_max_frames`, for every random draw the chosen
start frame lies in `[0, len(mel) - batch_max_frames)`, and the collater
returns the contiguous windows of the (alignment-padded) waveform at
`start_step = start_frame * hop_size` for `batch_max_steps` samples and of
the features at `start_frame` for `batch_max_frames` frames; both windows
have exactly the target lengths and lie fully inside the sequences they are
cropped from (the waveform being the original input whenever it already
satisfied the alignment invariant `len(waveform) ≥ len(mel) * hop_size`). -/
theorem collater_crops_aligned_window (audio : Tensor) (mel : List Tensor)
    (bms hop randDraw : ℕ) (hhop : 0 < hop) (hlong : bms / hop < mel.length) :
    collater audio mel (some bms) hop randDraw =
      some (((aligned_audio audio mel hop).drop
               ((randDraw % (mel.length - bms / hop)) * hop)).take bms,
            (mel.drop (randDraw % (mel.length - bms / hop))).take (bms / hop))
    ∧ randDraw % (mel.length - bms / hop) < mel.length - bms / hop
    ∧ (randDraw % (mel.length - bms / hop)) * hop + bms
        ≤ (aligned_audio audio mel hop).length
    ∧ randDraw % (mel.length - bms / hop) + bms / hop ≤ mel.length
    ∧ (((aligned_audio audio mel hop).drop
          ((randDraw % (mel.length - bms / hop)) * hop)).take bms).length = bms
    ∧ ((mel.drop (randDraw % (mel.length - bms / hop))).take (bms / hop)).length = bms / hop
    ∧ (mel.length * hop ≤ audio.length → aligned_audio audio mel hop = audio) := by
  have hie : 0 < mel.length - bms / hop := by omega
  have hsf : randDraw % (mel.length - bms / hop) < mel.length - bms / hop :=
    Nat.mod_lt _ hie
  have hlen : mel.length * hop ≤ (aligned_audio audio mel hop).length := by
    unfold aligned_audio
    split
    · rw [List.length_append, List.length_replicate]
      omega
    · omega
  have hkey : (randDraw % (mel.length - bms / hop)) * hop + bms
      ≤ (aligned_audio audio mel hop).length := by
    have hstep : randDraw % (mel.length - bms / hop) + 1 + bms / hop ≤ mel.length := by omega
    have hmul : (randDraw % (mel.length - bms / hop) + 1 + bms / hop) * hop
        ≤ mel.length * hop := Nat.mul_le_mul_right hop hstep
    have hring : (randDraw % (mel.length - bms / hop) + 1 + bms / hop) * hop
        = (randDraw % (mel.length - bms / hop)) * hop + hop + (bms / hop) * hop := by ring
    have hdm : bms = (bms / hop) * hop + bms % hop := by
      rw [Nat.mul_comm]
      exact (Nat.div_add_mod bms hop).symm
    have hr : bms % hop < hop := Nat.mod_lt _ hhop
    omega
  refine ⟨?_, hsf, hkey, by omega, ?_, ?_, ?_⟩
  · simp only [collater, Option.getD_some, if_pos hlong]
  · rw [List.length_take, List.length_drop]
    omega
  · rw [List.length_take, List.length_drop]
    omega
  · intro h
    unfold aligned_audio
    rw [if_neg (not_lt.mpr h)]

theorem collater_crops_aligned_window_witness :
    collater [1, 2, 3, 4, 5, 6, 7] [[1], [2], [3]] (some 4) 2 5
      = some (((aligned_audio [1, 2, 3, 4, 5, 6, 7] [[1], [2], [3]] 2).drop
                 ((5 % (([[1], [2], [3]] : List Tensor).length - 4 / 2)) * 2)).take 4,
              (([[1], [2], [3]] : List Tensor).drop
                 (5 % (([[1], [2], [3]] : List Tensor).length - 4 / 2))).take (4 / 2))
    ∧ 5 % (([[1], [2], [3]] : List Tensor).length - 4 / 2)
        < ([[1], [2], [3]] : List Tensor).length - 4 / 2
    ∧ (5 % (([[1], [2], [3]] : List Tensor).length - 4 / 2)) * 2 + 4
        ≤ (aligned_audio [1, 2, 3, 4, 5, 6, 7] [[1], [2], [3]] 2).length
    ∧ 5 % (([[1], [2], [3]] : List Tensor).length - 4 / 2) + 4 / 2
        ≤ ([[1], [2], [3]] : List Tensor).length
    ∧ (((aligned_audio [1, 2, 3, 4, 5, 6, 7] [[1], [2], [3]] 2).drop
          ((5 % (([[1], [2], [3]] : List Tensor).length - 4 / 2)) * 2)).take 4).length = 4
    ∧ ((([[1], [2], [3]] : List Tensor).drop
          (5 % (([[1], [2], [3]] : List Tensor).length - 4 / 2))).take (4 / 2)).length = 4 / 2
    ∧ (([[1], [2], [3]] : List Tensor).length * 2 ≤ ([1, 2, 3, 4, 5, 6, 7] : Tensor).length →
        aligned_audio [1, 2, 3, 4, 5, 6, 7] [[1], [2], [3]] 2 = [1, 2, 3, 4, 5, 6, 7]) :=
  collater_crops_aligned_window [1, 2, 3, 4, 5, 6, 7] [[1], [2], [3]] 4 2 5
    (by decide) (by decide)

theorem eval_epoch_loop_fails {B : Type} (num_save : ℕ) (save_ok : ℕ → Bool) (i : ℕ)
    (h2 : i ≤ num_save) (h5 : save_ok i = false) :
    ∀ (batches : List B) (done : ℕ) (c : Option ℕ),
      done < i → i ≤ done + batches.length →
      (∀ j, done < j → j < i → save_ok j = true) →
      eval_epoch_loop num_save save_ok batches done c
        = Except.error (i, "intermediate result export failed") := by
  intro batches
  induction batches with
  | nil =>
    intro done c hlt hle _
    simp only [List.length_nil, Nat.add_zero] at hle
    omega
  | cons b rest ih =>
    intro done c hlt hle hok
    rw [eval_epoch_loop]
    by_cases hi : done + 1 = i
    · rw [if_pos ⟨by omega, by rw [hi]; exact h5⟩]
      rw [hi]
    · have hj : save_ok (done + 1) = true := hok (done + 1) (by omega) (by omega)
      rw [if_neg (by simp [hj])]
      exact ih (done + 1) (some (done + 1)) (by omega)
        (by simp only [List.length_cons] at hle; omega)
        (fun j hj1 hj2 => hok j (by omega) hj2)

/-- C7 as stated is false on the code: with `num_save_intermediate_results =
1` and an exporter that fails on the first batch, the evaluation pass over
two batches aborts after the first `_eval_step` — the remaining batch is not
evaluated and the metrics are not recorded — instead of completing. -/
theorem eval_epoch_abort_counterexample :
    eval_epoch 1 (fun _ => false) ([0, 1] : List ℕ)
      = EvalEpochOutcome.aborted 1 "intermediate result export failed"
    ∧ eval_epoch 1 (fun _ => false) ([0, 1] : List ℕ)
      ≠ EvalEpochOutcome.completed 2 2 := by
  refine ⟨rfl, ?_⟩
  decide

/-- C7 amended: `generate_and_save_intermediate_result` is called with no
exception handler, so if exporting fails for the `i`-th batch (`i` among the
first `num_save_intermediate_results`), the exception propagates and the
evaluation pass aborts after exactly `i` evaluated batches: the remaining
batches are not evaluated and the evaluation metrics are neither logged nor
flushed nor reset. -/
theorem eval_epoch_aborts_on_export_failure {B : Type} (num_save : ℕ)
    (save_ok : ℕ → Bool) (batches : List B) (i : ℕ)
    (h1 : 1 ≤ i) (h2 : i ≤ num_save) (h3 : i ≤ batches.length)
    (h4 : ∀ j, 1 ≤ j → j < i → save_ok j = true) (h5 : save_ok i = false) :
    eval_epoch num_save save_ok batches
      = EvalEpochOutcome.aborted i "intermediate result export failed" := by
  unfold eval_epoch
  rw [eval_epoch_loop_fails num_save save_ok i h2 h5 batches 0 none (by omega)
    (by omega) (fun j hj1 hj2 => h4 j (by omega) hj2)]

theorem eval_epoch_aborts_on_export_failure_witness :
    eval_epoch 2 (fun j => !(j == 2)) ([0, 0, 0] : List ℕ)
      = EvalEpochOutcome.aborted 2 "intermediate result export failed" :=
  eval_epoch_aborts_on_export_failure 2 (fun j => !(j == 2)) [0, 0, 0] 2
    (by decide) (by decide) (by decide)
    (by
      intro j hj1 hj2
      have hj : j = 1 := by omega
      subst hj
      rfl)
    (by decide)

/-- C8: whenever the training run is cut short by an operator interruption
(`trainer.run()` raises `KeyboardInterrupt` carrying the trainer state), the
`except` handler in `main` saves a checkpoint before exiting, and the saved
`steps` value is exactly the counter of the interrupted state — which is the
state reached after some whole number of completed training batches, so all
progress up to the last completed step is preserved. -/
theorem interrupt_saves_checkpoint {B : Type} (train_max_steps : ℕ)
    (interrupt_at : ℕ → Bool) (batches : List B) (s0 : TrainerState) (s : TrainerState)
    (h : trainer_run train_max_steps interrupt_at batches s0 = Except.error s) :
    main_run train_max_steps interrupt_at batches s0 = (s, some s.steps)
    ∧ ∃ k, k ≤ batches.length ∧ s = run_train_steps train_max_steps k s0 := by
  constructor
  · unfold main_run
    rw [h]
  · induction batches generalizing s0 with
    | nil => exact absurd h (by rw [trainer_run]; exact fun hc => Except.noConfusion hc)
    | cons b rest ih =>
      rw [trainer_run] at h
      by_cases hf : s0.finish_train
      · rw [if_pos hf] at h
        exact absurd h (fun hc => Except.noConfusion hc)
      · rw [if_neg hf] at h
        by_cases hi : interrupt_at s0.steps
        · rw [if_pos hi] at h
          have hs : s0 = s := by
            injection h
          exact ⟨0, by omega, hs.symm⟩
        · rw [if_neg hi] at h
          obtain ⟨k, hk, hks⟩ := ih (train_step_counters train_max_steps s0) h
          refine ⟨k + 1, by simp only [List.length_cons]; omega, ?_⟩
          rw [show run_train_steps train_max_steps (k + 1) s0
            = run_train_steps train_max_steps k (train_step_counters train_max_steps s0)
            from rfl]
          exact hks

theorem interrupt_saves_checkpoint_witness :
    main_run 10 (fun st => st == 2) ([0, 0, 0, 0, 0] : List ℕ) ⟨0, false⟩
      = (⟨2, false⟩, some 2)
    ∧ ∃ k, k ≤ ([0, 0, 0, 0, 0] : List ℕ).length
        ∧ (⟨2, false⟩ : TrainerState) = run_train_steps 10 k ⟨0, false⟩ :=
  interrupt_saves_checkpoint 10 (fun st => st == 2) [0, 0, 0, 0, 0] ⟨0, false⟩ ⟨2, false⟩ rfl

end TrainMelgan
